import Mathlib

/-
Verification development for the pwman credential vault (TypeScript sources:
pwman.mts, src/csvSpec.mts, src/utils.mts, src/master.mts, src/db.mts,
src/dbState.mts, src/credentialCrypto.mts, src/messages.mts).

The embedding below translates the vault logic into Lean. JavaScript strings
are modeled as Lean String (lists of Unicode scalar values); byte buffers are
lists of Nat below 256. External library primitives (node:crypto, node:sqlite,
the file system and interactive prompts) are modeled at their documented
interfaces, as noted at each definition; all repository logic (state
classification, command control flow, CSV codec, envelope layout,
transactional bulk replace) is translated directly from the source.
-/

deriving instance DecidableEq for Except

namespace Pwman

/-! ## JavaScript string primitives -/

/-- Model of JavaScript String.prototype.split with a one-character separator,
acting on the character list: the empty list splits to one empty group, and a
separator at either end yields an empty group there, exactly as in JS. -/
def splitOnChar (sep : Char) : List Char → List (List Char)
  | [] => [[]]
  | c :: rest =>
    if c = sep then [] :: splitOnChar sep rest
    else
      match splitOnChar sep rest with
      | [] => [[c]]
      | g :: gs => (c :: g) :: gs

/-- Model of Array.prototype.join with a one-character separator, acting on
character lists. -/
def joinWith (sep : Char) : List (List Char) → List Char
  | [] => []
  | [g] => g
  | g :: gs => g ++ sep :: joinWith sep gs

/-- Test used by the control-character regex /[\t\r\n]/ of
validateNoControlChars in utils.mts, on one character. -/
def isCtrlChar (c : Char) : Bool :=
  c == '\t' || c == '\r' || c == '\n'

/-- Whether a character list contains a tab, carriage return or newline. -/
def hasCtrlCharList (cs : List Char) : Bool :=
  cs.any isCtrlChar

/-- Whether a string matches the control-character regex /[\t\r\n]/ of
validateNoControlChars in utils.mts. -/
def hasControlChar (s : String) : Bool :=
  hasCtrlCharList s.data

/-! ## Outcomes

Every command in pwman.mts terminates through exitWith (exitHandler.mts),
which writes a message and throws an exit code that main turns into the
process exit status. The embedding returns the code and message instead. -/

/-- Exit codes from ExitCode in exitHandler.mts. -/
inductive ExitCode where
  | ok
  | generalError
  | usageError
  | authError
  | ioDbError
deriving DecidableEq, Repr

/-- Identifiers for the user-visible messages of messages.mts that the
embedded commands can produce, together with the data printed with them. -/
inductive Msg where
  | dbNotInitialized
  | dbCorrupted
  | dbAlreadyInitialized
  | dbInitialized
  | authFailed
  | masterNotSet
  | invalidOldMaster
  | masterUnchanged
  | masterChanged
  | changeMasterFailed
  | emptyPassword
  | controlChar
  | entryAdded (service username : String)
  | duplicateEntry (service username : String)
  | ioError
  | dbAccessError
  | entryNotFound
  | entryDeleted
  | gotEntry (service username password : String)
  | noData
  | listing (rows : List (String × String))
  | statusReport (count : Nat)
  | csvExtensionRequired
  | exportTargetDir
  | exportDirNotExist
  | exportCanceled
  | exported
  | csvBomNotAllowed
  | csvCrlfNotAllowed
  | csvEmpty
  | csvInvalidHeader (got : String)
  | invalidImportLine (lineNo : Nat)
  | invalidImportFormat
  | importFailed
  | importCanceled
  | imported (count : Nat)
  | unexpectedError
  | usage
deriving DecidableEq, Repr

/-- Result of one command invocation: the exit code and the message passed to
exitWith. -/
structure Outcome where
  code : ExitCode
  msg : Msg
deriving DecidableEq, Repr

/-! ## CsvCodec (csvSpec.mts) -/

/-- One CSV record, type CsvRecord of csvSpec.mts: the password field is
plaintext on both the import and the export side. -/
structure CsvRecord where
  service : String
  username : String
  password : String
deriving DecidableEq, Repr

/-- The fixed header CsvSpec.header of csvSpec.mts. -/
def csvHeader : String := "service,username,password"

/-- The data line written for one record by buildCsv in csvSpec.mts. -/
def csvLine (r : CsvRecord) : String :=
  r.service ++ "," ++ r.username ++ "," ++ r.password

/-- Joining lines with the LF newline of CsvSpec.newline, as
lines.join in buildCsv does. -/
def joinLines (lines : List String) : String :=
  String.mk (joinWith '\n' (lines.map String.data))

/-- The per-record loop of buildCsv in csvSpec.mts: each record is checked by
validateNoControlChars (which exits with the control-character error on a
match) and serialized to one line. -/
def buildCsvLines : List CsvRecord → Except Outcome (List String)
  | [] => .ok []
  | r :: rs =>
    if hasControlChar r.service || hasControlChar r.username
        || hasControlChar r.password then
      .error ⟨.generalError, .controlChar⟩
    else
      match buildCsvLines rs with
      | .error e => .error e
      | .ok ls => .ok (csvLine r :: ls)

/-- buildCsv of csvSpec.mts: the fixed header followed by one line per
record, joined by LF with no trailing newline. -/
def buildCsv (records : List CsvRecord) : Except Outcome String :=
  match buildCsvLines records with
  | .error e => .error e
  | .ok ls => .ok (joinLines (csvHeader :: ls))

/-- The data-line loop of parseCsvFileStrict in csvSpec.mts. The argument
lineNo is the 1-based line number of the first remaining line (the loop index
i plus one, as used in the invalidImportLine message). A single empty final
line is allowed; an interior empty line, a line that does not split into
exactly three comma-separated fields, or a field with a control character is
rejected. -/
def parseDataLines : Nat → List (List Char) → Except Outcome (List CsvRecord)
  | _, [] => .ok []
  | lineNo, line :: rest =>
    if line = [] then
      if rest = [] then .ok []
      else .error ⟨.generalError, .invalidImportLine lineNo⟩
    else
      match splitOnChar ',' line with
      | [s, u, p] =>
        if hasCtrlCharList s || hasCtrlCharList u || hasCtrlCharList p then
          .error ⟨.generalError, .controlChar⟩
        else
          match parseDataLines (lineNo + 1) rest with
          | .error e => .error e
          | .ok rs => .ok (⟨String.mk s, String.mk u, String.mk p⟩ :: rs)
      | _ => .error ⟨.generalError, .invalidImportFormat⟩

/-- The line-level stage of parseCsvFileStrict: an empty file or empty first
line is rejected, the first line must equal the fixed header, and the
remaining lines feed the data-line loop starting at line 2. -/
def parseCsvLines : List (List Char) → Except Outcome (List CsvRecord)
  | [] => .error ⟨.generalError, .csvEmpty⟩
  | first :: rest =>
    if first = [] then .error ⟨.generalError, .csvEmpty⟩
    else if first ≠ csvHeader.data then
      .error ⟨.generalError, .csvInvalidHeader (String.mk first)⟩
    else parseDataLines 2 rest

/-- parseCsvFileStrict of csvSpec.mts, applied to the text read from the
source import file. The preamble (the .csv extension check
and the existence check, requireCsvExtension and requireExistingFile) probes
the file system before any bytes are read and is outside this content-level
embedding. The text checks follow the source exactly: no BOM, no carriage
return anywhere, then line splitting on LF and the header and data-line
checks. -/
def parseCsvFileStrict (text : String) : Except Outcome (List CsvRecord) :=
  let cs := text.data
  if cs.head? = some (Char.ofNat 0xFEFF) then
    .error ⟨.generalError, .csvBomNotAllowed⟩
  else if '\r' ∈ cs then
    .error ⟨.generalError, .csvCrlfNotAllowed⟩
  else
    parseCsvLines (splitOnChar '\n' cs)

/-! ## Byte-level codecs

Model of the byte conversions the vault obtains from the node Buffer library:
UTF-8 encoding and decoding (Buffer.from(str, utf8) and buf.toString(utf8))
and base64 encoding and decoding (buf.toString(base64) and
Buffer.from(str, base64)). Bytes are naturals below 256. -/

/-- UTF-8 encoding of one Unicode scalar value, byte by byte. -/
def utf8EncodeChar (c : Char) : List Nat :=
  let v := c.toNat
  if v < 0x80 then [v]
  else if v < 0x800 then
    [0xC0 + v / 64, 0x80 + v % 64]
  else if v < 0x10000 then
    [0xE0 + v / 4096, 0x80 + v / 64 % 64, 0x80 + v % 64]
  else
    [0xF0 + v / 262144, 0x80 + v / 4096 % 64, 0x80 + v / 64 % 64, 0x80 + v % 64]

/-- UTF-8 encoding of a whole string. -/
def utf8Encode (s : String) : List Nat :=
  (s.data.map utf8EncodeChar).flatten

/-- Decoding of one UTF-8 sequence: given the lead byte and the remaining
bytes, return the scalar value and the bytes after the sequence (with the
certificate that the remainder shrank, for termination), or none on a
malformed sequence. -/
def utf8DecodeLead (b : Nat) (rest : List Nat) :
    Option (Nat × { r : List Nat // r.length ≤ rest.length }) :=
  if b < 0x80 then some (b, ⟨rest, le_refl _⟩)
  else if b < 0xC0 then none
  else if b < 0xE0 then
    match rest with
    | b2 :: rest2 =>
      if 0x80 ≤ b2 ∧ b2 < 0xC0 then
        some ((b - 0xC0) * 64 + (b2 - 0x80),
          ⟨rest2, by simp only [List.length_cons]; omega⟩)
      else none
    | [] => none
  else if b < 0xF0 then
    match rest with
    | b2 :: b3 :: rest3 =>
      if (0x80 ≤ b2 ∧ b2 < 0xC0) ∧ (0x80 ≤ b3 ∧ b3 < 0xC0) then
        some ((b - 0xE0) * 4096 + (b2 - 0x80) * 64 + (b3 - 0x80),
          ⟨rest3, by simp only [List.length_cons]; omega⟩)
      else none
    | _ => none
  else if b < 0xF8 then
    match rest with
    | b2 :: b3 :: b4 :: rest4 =>
      if (0x80 ≤ b2 ∧ b2 < 0xC0) ∧ (0x80 ≤ b3 ∧ b3 < 0xC0)
          ∧ (0x80 ≤ b4 ∧ b4 < 0xC0) then
        some ((b - 0xF0) * 262144 + (b2 - 0x80) * 4096
          + (b3 - 0x80) * 64 + (b4 - 0x80),
          ⟨rest4, by simp only [List.length_cons]; omega⟩)
      else none
    | _ => none
  else none

/-- Fuel-bounded UTF-8 decoding loop: one unit of fuel per decoded
character. The wrapper below supplies enough fuel for any input, so the
bound is never the reason a decode fails. -/
def utf8DecodeFuel : Nat → List Nat → Option (List Char)
  | _, [] => some []
  | 0, _ :: _ => none
  | fuel + 1, b :: rest =>
    match utf8DecodeLead b rest with
    | none => none
    | some (v, rest2) =>
      (utf8DecodeFuel fuel rest2.val).map fun cs => Char.ofNat v :: cs

/-- UTF-8 decoding of a byte list to characters. The vault only decodes byte
lists its own encoder produced, so decoding is partial: a malformed sequence
gives none (node would substitute replacement characters there). -/
def utf8DecodeChars (l : List Nat) : Option (List Char) :=
  utf8DecodeFuel l.length l

/-- The base64 alphabet in index order. -/
def b64Alphabet : List Char :=
  "ABCDEFGHIJKLMNOPQRSTUVWXYZabcdefghijklmnopqrstuvwxyz0123456789+/".data

/-- The base64 character for a 6-bit value. -/
def b64Char (n : Nat) : Char :=
  b64Alphabet.getD n '?'

/-- The 6-bit value of a base64 character, if any. -/
def b64Value (c : Char) : Option Nat :=
  b64Alphabet.findIdx? (fun d => d == c)

/-- Standard base64 encoding with padding, three input bytes to four output
characters. -/
def b64Encode : List Nat → List Char
  | [] => []
  | [a] => [b64Char (a / 4), b64Char (a % 4 * 16), '=', '=']
  | [a, b] =>
    [b64Char (a / 4), b64Char (a % 4 * 16 + b / 16), b64Char (b % 16 * 4), '=']
  | a :: b :: c :: rest =>
    b64Char (a / 4) :: b64Char (a % 4 * 16 + b / 16)
      :: b64Char (b % 16 * 4 + c / 64) :: b64Char (c % 64) :: b64Encode rest

/-- Base64 decoding of the strings the encoder produces; anything else gives
none. -/
def b64Decode : List Char → Option (List Nat)
  | [] => some []
  | c1 :: c2 :: c3 :: c4 :: rest =>
    match b64Value c1, b64Value c2 with
    | some v1, some v2 =>
      if c3 = '=' ∧ c4 = '=' ∧ rest = [] then
        some [v1 * 4 + v2 / 16]
      else
        match b64Value c3 with
        | some v3 =>
          if c4 = '=' ∧ rest = [] then
            some [v1 * 4 + v2 / 16, v2 % 16 * 16 + v3 / 4]
          else
            match b64Value c4 with
            | some v4 =>
              (b64Decode rest).map fun tl =>
                (v1 * 4 + v2 / 16) :: (v2 % 16 * 16 + v3 / 4) :: (v3 % 4 * 64 + v4) :: tl
            | none => none
        | none => none
    | _, _ => none
  | _ => none

/-! ## KeyDerivation and EnvelopeCrypto (credentialCrypto.mts)

The cryptographic primitives themselves live in node crypto. The vault treats
them as opaque deterministic maps: pbkdf2Sync derives a key from password and
salt, createHash(sha256) fingerprints it, and AES-256-GCM turns a keystream
and an authentication tag out of key and IV. The concrete stand-ins below
preserve exactly the interface shape the vault relies on — determinism,
key/IV dependence, and tag verification on decryption — while the envelope
layout, splitting offsets and base64 framing are translated from
credentialCrypto.mts unchanged. -/

/-- Model of crypto.pbkdf2Sync(masterPw, salt, 100000, 32, sha256): a
deterministic byte-list key from password and salt, injective in the pair. -/
def deriveKey (masterPw salt : String) : List Nat :=
  utf8Encode masterPw ++ 0 :: utf8Encode salt

/-- Hexadecimal digit characters. -/
def hexDigit (n : Nat) : Char :=
  "0123456789abcdef".data.getD n '0'

/-- Model of hashDerivedKey in credentialCrypto.mts,
createHash(sha256).update(key).digest(hex): a deterministic, collision-free
hex string fingerprint of the key bytes. -/
def hashDerivedKey (key : List Nat) : String :=
  String.mk ((key.map fun b => [hexDigit (b / 16 % 16), hexDigit (b % 16)]).flatten)

/-- Model of the AES-256-GCM keystream byte at position i for a given key and
IV, as produced inside crypto.createCipheriv: an arbitrary deterministic byte
stream. -/
def keystreamByte (key iv : List Nat) (i : Nat) : Nat :=
  (key.foldl (fun a b => a * 31 + b) 7
    + iv.foldl (fun a b => a * 131 + b) 11 + i * 97) % 256

/-- XOR of a byte list against the keystream starting at position i: the
cipher core applied by update/final on both the encryption and decryption
side. -/
def xorStream (key iv : List Nat) : Nat → List Nat → List Nat
  | _, [] => []
  | i, b :: rest => (b ^^^ keystreamByte key iv i) :: xorStream key iv (i + 1) rest

/-- Model of the 128-bit GCM authentication tag over key, IV and ciphertext,
as returned by cipher.getAuthTag and checked by decipher.final. -/
def gcmTag (key iv ct : List Nat) : List Nat :=
  (List.range 16).map fun i =>
    (ct.foldl (fun a b => a * 257 + b)
      (i + key.foldl (fun a b => a * 31 + b) 3
        + iv.foldl (fun a b => a * 17 + b) 5)) % 256

/-- encrypt of credentialCrypto.mts. The source draws a fresh 12-byte IV from
crypto.randomBytes inside the function; the embedding receives that random
draw as the iv argument. The returned envelope is
Buffer.concat([iv, tag, encrypted]).toString(base64), translated verbatim. -/
def encrypt (plain : String) (key : List Nat) (iv : List Nat) : String :=
  let encrypted := xorStream key iv 0 (utf8Encode plain)
  let tag := gcmTag key iv encrypted
  String.mk (b64Encode (iv ++ tag ++ encrypted))

/-- Errors of decrypt: a tag mismatch (decipher.final throws) or an envelope
whose base64 or UTF-8 framing is malformed. -/
inductive CryptoError where
  | authTagMismatch
  | badEnvelope
deriving DecidableEq, Repr

/-- decrypt of credentialCrypto.mts: base64-decode the envelope, split it as
iv = data[0..12), tag = data[12..28), encrypted = data[28..), then decrypt
and verify the tag, failing rather than returning unauthenticated bytes. -/
def decrypt (cipherText : String) (key : List Nat) : Except CryptoError String :=
  match b64Decode cipherText.data with
  | none => .error .badEnvelope
  | some data =>
    let iv := data.take 12
    let tag := (data.drop 12).take 16
    let encrypted := data.drop 28
    if gcmTag key iv encrypted = tag then
      match utf8DecodeChars (xorStream key iv 0 encrypted) with
      | some cs => .ok (String.mk cs)
      | none => .error .badEnvelope
    else .error .authTagMismatch

/-! ## Persistent store (db.mts) and its state (dbState.mts)

The SQLite database is modeled as the observable content the vault reads:
whether the database file exists, whether PRAGMA integrity_check reports ok,
which of the two tables of SCHEMA_SQL exist, and the rows of the master and
credentials tables. The master table schema (id INTEGER PRIMARY KEY
CHECK (id = 1)) keys every row by id 1, so the rows are kept as a plain list
whose head is the row the queries WHERE id = 1 return. -/

/-- One row of the master table: password_hash and salt (id is fixed to 1 by
the schema). -/
structure MasterRow where
  passwordHash : String
  salt : String
deriving DecidableEq, Repr

/-- One row of the credentials table; password holds the base64 envelope
ciphertext. -/
structure CredRow where
  service : String
  username : String
  password : String
deriving DecidableEq, Repr

/-- The persisted state the vault observes through node:sqlite. -/
structure Store where
  fileExists : Bool
  integrityOk : Bool
  hasMasterTable : Bool
  hasCredTable : Bool
  masterRows : List MasterRow
  credentials : List CredRow
deriving DecidableEq, Repr

/-- DbState of dbState.mts. -/
inductive DbState where
  | noDb
  | uninitialized
  | ready
  | corrupted
deriving DecidableEq, Repr

/-- checkDbState of dbState.mts, step for step: missing file, then
integrity_check, then table presence, then the master row count. -/
def checkDbState (s : Store) : DbState :=
  if ¬ s.fileExists then .noDb
  else if ¬ s.integrityOk then .corrupted
  else if ¬ s.hasMasterTable ∧ ¬ s.hasCredTable then .uninitialized
  else if s.hasMasterTable ≠ s.hasCredTable then .corrupted
  else if s.masterRows.length = 0 then .uninitialized
  else if s.masterRows.length = 1 then .ready
  else .corrupted

/-- requireReadyState of dbState.mts: none means the command may proceed,
some e is the exitWith outcome. -/
def requireReadyState (s : Store) : Option Outcome :=
  match checkDbState s with
  | .noDb => some ⟨.ioDbError, .dbNotInitialized⟩
  | .uninitialized => some ⟨.ioDbError, .dbNotInitialized⟩
  | .corrupted => some ⟨.ioDbError, .dbCorrupted⟩
  | .ready => none

/-- The outcome requireReadyState produces for each non-ready state. -/
def notReadyOutcome (st : DbState) : Outcome :=
  if st = .corrupted then ⟨.ioDbError, .dbCorrupted⟩
  else ⟨.ioDbError, .dbNotInitialized⟩

/-! ## Master password helpers (master.mts) -/

/-- verifyMasterPassword of master.mts: read the master row WHERE id = 1
(exiting with masterNotSet when absent), derive a key from the input password
and the stored salt, and compare fingerprints with the constant-time
comparison. -/
def verifyMasterPassword (inputPw : String) (s : Store) : Except Outcome Bool :=
  match s.masterRows.head? with
  | none => .error ⟨.generalError, .masterNotSet⟩
  | some row => .ok (hashDerivedKey (deriveKey inputPw row.salt) == row.passwordHash)

/-- getMasterSalt of master.mts. -/
def getMasterSalt (s : Store) : Except Outcome String :=
  match s.masterRows.head? with
  | none => .error ⟨.generalError, .masterNotSet⟩
  | some row => .ok row.salt

/-! ## Transactions

Each command wraps its writes in BEGIN followed by COMMIT and issues ROLLBACK
in its catch block. node:sqlite applies each statement immediately and
ROLLBACK restores the state at BEGIN, so the embedding runs the statements of
the transaction body stepwise and the caller keeps the original store when
any step fails. A statement can also fail through the engine (the simulated
mid-transaction failure of the test list); the failAt oracle injects such a
failure at a given step index. -/

/-- One mutating SQL statement inside a transaction body. -/
inductive TxnStep where
  | createSchema
  | insertMasterRow (passwordHash salt : String)
  | updateMaster (passwordHash salt : String)
  | deleteAllCredentials
  | insertCredential (row : CredRow)
deriving DecidableEq, Repr

/-- How a statement can fail. -/
inductive DbErr where
  | uniqueViolation
  | engineFailure
deriving DecidableEq, Repr

/-- Effect of one statement on the store. CREATE TABLE IF NOT EXISTS makes
both tables present; INSERT INTO master with id 1 violates the primary key
when a row exists; INSERT INTO credentials violates the (service, username)
primary key when that pair exists; UPDATE master WHERE id = 1 rewrites the
master rows; DELETE FROM credentials clears the table. -/
def applyStep (s : Store) : TxnStep → Except DbErr Store
  | .createSchema =>
    .ok { s with hasMasterTable := true, hasCredTable := true }
  | .insertMasterRow h salt =>
    if s.masterRows.isEmpty then .ok { s with masterRows := [⟨h, salt⟩] }
    else .error .uniqueViolation
  | .updateMaster h salt =>
    .ok { s with masterRows := s.masterRows.map fun _ => ⟨h, salt⟩ }
  | .deleteAllCredentials =>
    .ok { s with credentials := [] }
  | .insertCredential r =>
    if s.credentials.any fun c => c.service == r.service && c.username == r.username then
      .error .uniqueViolation
    else .ok { s with credentials := s.credentials ++ [r] }

/-- Run the statements of a transaction body in order from step index i,
injecting an engine failure where failAt answers true. -/
def runTxn (failAt : Nat → Bool) : Nat → Store → List TxnStep → Except DbErr Store
  | _, s, [] => .ok s
  | i, s, step :: rest =>
    if failAt i then .error .engineFailure
    else
      match applyStep s step with
      | .error e => .error e
      | .ok s2 => runTxn failAt (i + 1) s2 rest

/-! ## Ordering for list (SQLite ORDER BY)

SQLite orders TEXT columns by binary collation, which on the UTF-8 bytes the
vault stores agrees with the lexicographic order of Unicode scalar values.
The comparison is implemented directly so it is executable. -/

/-- Lexicographic comparison of character lists by scalar value. -/
def lexLe : List Char → List Char → Bool
  | [], _ => true
  | _ :: _, [] => false
  | a :: as, b :: bs =>
    if a.toNat < b.toNat then true
    else if b.toNat < a.toNat then false
    else lexLe as bs

/-- Binary-collation comparison of two strings, the ORDER BY semantics. -/
def strLe (a b : String) : Bool :=
  lexLe a.data b.data

/-! ## Commands (pwman.mts)

Each cmd function is translated with its interactive and file-system inputs
passed as arguments: the passwords the prompts would return, the text the
file to import contains, the confirmation keys askChoice would return, the IVs
crypto.randomBytes would draw (one per encryption, indexed), and the failAt
failure-injection oracle. Argument-count and option-name validation is the
CLI argument layer (out of scope); where an argument check interacts with a
claim, as in cmdList, the option shape is kept. Every command returns its
exitWith outcome together with the resulting store. -/

/-- cmdInit of pwman.mts: reject from Ready and Corrupted, reject an empty
master password, then in one transaction create the schema and insert the
master row with a fresh salt. Opening the database creates the file. -/
def cmdInit (s : Store) (masterPw : String) (newSalt : String)
    (failAt : Nat → Bool) : Outcome × Store :=
  match checkDbState s with
  | .ready => (⟨.generalError, .dbAlreadyInitialized⟩, s)
  | .corrupted => (⟨.ioDbError, .dbCorrupted⟩, s)
  | _ =>
    if masterPw = "" then (⟨.usageError, .emptyPassword⟩, s)
    else
      let s1 := { s with fileExists := true }
      let hash := hashDerivedKey (deriveKey masterPw newSalt)
      match runTxn failAt 0 s1 [.createSchema, .insertMasterRow hash newSalt] with
      | .ok s2 => (⟨.ok, .dbInitialized⟩, s2)
      | .error _ => (⟨.generalError, .unexpectedError⟩, s1)

/-- cmdAdd of pwman.mts: require Ready, check all three fields for control
characters, verify the master password, encrypt the password under the
current key and insert the row, mapping a UNIQUE violation to the duplicate
message. -/
def cmdAdd (s : Store) (service username password masterPw : String)
    (iv : List Nat) (failAt : Nat → Bool) : Outcome × Store :=
  match requireReadyState s with
  | some e => (e, s)
  | none =>
    if hasControlChar service || hasControlChar username
        || hasControlChar password then
      (⟨.generalError, .controlChar⟩, s)
    else
      match verifyMasterPassword masterPw s with
      | .error e => (e, s)
      | .ok false => (⟨.authError, .authFailed⟩, s)
      | .ok true =>
        match getMasterSalt s with
        | .error e => (e, s)
        | .ok salt =>
          let key := deriveKey masterPw salt
          let encrypted := encrypt password key iv
          match runTxn failAt 0 s [.insertCredential ⟨service, username, encrypted⟩] with
          | .ok s2 => (⟨.ok, .entryAdded service username⟩, s2)
          | .error .uniqueViolation => (⟨.generalError, .duplicateEntry service username⟩, s)
          | .error .engineFailure => (⟨.ioDbError, .ioError⟩, s)

/-- cmdGet of pwman.mts: require Ready, verify the master password, look the
row up by service and username, and decrypt it (a failed decryption throws
out of the command to the top-level handler). -/
def cmdGet (s : Store) (service username masterPw : String) : Outcome × Store :=
  match requireReadyState s with
  | some e => (e, s)
  | none =>
    match verifyMasterPassword masterPw s with
    | .error e => (e, s)
    | .ok false => (⟨.authError, .authFailed⟩, s)
    | .ok true =>
      match s.credentials.find? fun c => c.service == service && c.username == username with
      | none => (⟨.generalError, .entryNotFound⟩, s)
      | some row =>
        match getMasterSalt s with
        | .error e => (e, s)
        | .ok salt =>
          match decrypt row.password (deriveKey masterPw salt) with
          | .ok plain => (⟨.ok, .gotEntry service username plain⟩, s)
          | .error _ => (⟨.generalError, .unexpectedError⟩, s)

/-- cmdDel of pwman.mts: require Ready, verify the master password, delete
the row in a transaction; zero deleted rows roll back and report not found. -/
def cmdDel (s : Store) (service username masterPw : String)
    (failAt : Nat → Bool) : Outcome × Store :=
  match requireReadyState s with
  | some e => (e, s)
  | none =>
    match verifyMasterPassword masterPw s with
    | .error e => (e, s)
    | .ok false => (⟨.authError, .authFailed⟩, s)
    | .ok true =>
      if failAt 0 then (⟨.ioDbError, .dbAccessError⟩, s)
      else
        let remaining := s.credentials.filter fun c =>
          ¬ (c.service == service && c.username == username)
        if remaining.length = s.credentials.length then
          (⟨.generalError, .entryNotFound⟩, s)
        else (⟨.ok, .entryDeleted⟩, { s with credentials := remaining })

/-- cmdList of pwman.mts. The argument list is either [list] (sortArgs none)
or [list, flag, column] (sortArgs some): the source initializes orderBy to
service and order to ASC, and overwrites them only after validating flag and
column against the fixed allow-lists. The query result is the credentials
ordered by the chosen column. -/
def cmdList (s : Store) (sortArgs : Option (String × String)) : Outcome × Store :=
  match requireReadyState s with
  | some e => (e, s)
  | none =>
    let parsed : Except Outcome (String × Bool) :=
      match sortArgs with
      | none => .ok ("service", true)
      | some (flag, column) =>
        if ¬ (flag = "--asc" ∨ flag = "--desc")
            ∨ ¬ (column = "service" ∨ column = "username") then
          .error ⟨.usageError, .usage⟩
        else .ok (column, if flag = "--desc" then false else true)
    match parsed with
    | .error e => (e, s)
    | .ok (orderBy, asc) =>
      let key : CredRow → String :=
        if orderBy = "username" then fun c => c.username else fun c => c.service
      let le : CredRow → CredRow → Bool :=
        if asc then fun a b => strLe (key a) (key b)
        else fun a b => strLe (key b) (key a)
      let rows := (s.credentials.mergeSort le).map fun c => (c.service, c.username)
      if rows.length = 0 then (⟨.ok, .noData⟩, s)
      else (⟨.ok, .listing rows⟩, s)

/-- cmdStatus of pwman.mts: ensureDbExists only checks that the database file
exists, then the credential count is queried directly — no requireReadyState
call and no master-table inspection. The count query throws (caught and
reported as a database access error) exactly when the credentials table is
missing. -/
def cmdStatus (s : Store) : Outcome × Store :=
  if ¬ s.fileExists then (⟨.ioDbError, .dbNotInitialized⟩, s)
  else if ¬ s.hasCredTable then (⟨.ioDbError, .dbAccessError⟩, s)
  else (⟨.ok, .statusReport s.credentials.length⟩, s)

/-- Decrypt every credential row under one key, as the export and rotation
loops do; the first failing row aborts. -/
def decryptAll (key : List Nat) : List CredRow → Except CryptoError (List CsvRecord)
  | [] => .ok []
  | r :: rest =>
    match decrypt r.password key with
    | .error e => .error e
    | .ok plain =>
      match decryptAll key rest with
      | .error e => .error e
      | .ok tl => .ok (⟨r.service, r.username, plain⟩ :: tl)

/-- cmdExport of pwman.mts: require Ready, validate the target path (a .csv
extension, not a directory, an existing parent directory — the file-system
answers are passed in), resolve a name conflict through the overwrite, rename
or cancel choice, then verify the master password, decrypt every record,
build the CSV and write it to a temporary path renamed into place. The store
itself is never mutated. -/
def cmdExport (s : Store) (extensionOk targetIsDir dirOk targetExists : Bool)
    (choice : Char) (masterPw : String) : Outcome × Store :=
  match requireReadyState s with
  | some e => (e, s)
  | none =>
    if ¬ extensionOk then (⟨.usageError, .csvExtensionRequired⟩, s)
    else if targetIsDir then (⟨.usageError, .exportTargetDir⟩, s)
    else if ¬ dirOk then (⟨.ioDbError, .exportDirNotExist⟩, s)
    else if targetExists ∧ choice = 'c' then (⟨.ok, .exportCanceled⟩, s)
    else
      match verifyMasterPassword masterPw s with
      | .error e => (e, s)
      | .ok false => (⟨.authError, .authFailed⟩, s)
      | .ok true =>
        match getMasterSalt s with
        | .error e => (e, s)
        | .ok salt =>
          match decryptAll (deriveKey masterPw salt) s.credentials with
          | .error _ => (⟨.generalError, .unexpectedError⟩, s)
          | .ok plainRecs =>
            match buildCsv plainRecs with
            | .error e => (e, s)
            | .ok _ => (⟨.ok, .exported⟩, s)

/-- cmdImport of pwman.mts, in source order: require Ready, verify the master
password, parse the file strictly, ask for confirmation when records already
exist, then replace everything — DELETE FROM credentials and one INSERT per
parsed record, re-encrypted under the current key — inside one transaction,
reporting importFailed after the rollback when any statement fails. -/
def cmdImport (s : Store) (text : String) (masterPw : String) (confirmYes : Bool)
    (ivs : Nat → List Nat) (failAt : Nat → Bool) : Outcome × Store :=
  match requireReadyState s with
  | some e => (e, s)
  | none =>
    match verifyMasterPassword masterPw s with
    | .error e => (e, s)
    | .ok false => (⟨.authError, .authFailed⟩, s)
    | .ok true =>
      match parseCsvFileStrict text with
      | .error e => (e, s)
      | .ok records =>
        if 0 < s.credentials.length ∧ ¬ confirmYes then
          (⟨.ok, .importCanceled⟩, s)
        else
          match getMasterSalt s with
          | .error e => (e, s)
          | .ok salt =>
            let key := deriveKey masterPw salt
            let steps := TxnStep.deleteAllCredentials ::
              records.enum.map fun p =>
                .insertCredential ⟨p.2.service, p.2.username, encrypt p.2.password key (ivs p.1)⟩
            match runTxn failAt 0 s steps with
            | .ok s2 => (⟨.ok, .imported records.length⟩, s2)
            | .error _ => (⟨.ioDbError, .importFailed⟩, s)

/-- cmdChangeMaster of pwman.mts, in source order: require Ready; when the
old and the new password are equal, exit successfully with masterUnchanged
before anything is verified or written; otherwise verify the old password,
read the master row, decrypt every credential under the old key (still
outside the transaction), then in one transaction update the master row with
a fresh salt and replace every credential re-encrypted under the new key.
Any failure in the try block rolls back and reports changeMasterFailed. -/
def cmdChangeMaster (s : Store) (oldPw newPw : String) (newSalt : String)
    (ivs : Nat → List Nat) (failAt : Nat → Bool) : Outcome × Store :=
  match requireReadyState s with
  | some e => (e, s)
  | none =>
    if oldPw = newPw then (⟨.ok, .masterUnchanged⟩, s)
    else
      match verifyMasterPassword oldPw s with
      | .error e => (e, s)
      | .ok false => (⟨.authError, .invalidOldMaster⟩, s)
      | .ok true =>
        match s.masterRows.head? with
        | none => (⟨.generalError, .changeMasterFailed⟩, s)
        | some masterRow =>
          let oldKey := deriveKey oldPw masterRow.salt
          match decryptAll oldKey s.credentials with
          | .error _ => (⟨.generalError, .changeMasterFailed⟩, s)
          | .ok plainRows =>
            let newKey := deriveKey newPw newSalt
            let newHash := hashDerivedKey newKey
            let steps := TxnStep.updateMaster newHash newSalt ::
              TxnStep.deleteAllCredentials ::
              plainRows.enum.map fun p =>
                .insertCredential ⟨p.2.service, p.2.username, encrypt p.2.password newKey (ivs p.1)⟩
            match runTxn failAt 0 s steps with
            | .ok s2 => (⟨.ok, .masterChanged⟩, s2)
            | .error _ => (⟨.generalError, .changeMasterFailed⟩, s)

/-! ## Concrete example inputs

Small concrete stores and inputs used to evaluate the theorems below on
explicit data. -/

/-- A fixed 12-byte IV (a concrete draw of crypto.randomBytes(12)). -/
def iv0 : List Nat := [0, 0, 0, 0, 0, 0, 0, 0, 0, 0, 0, 0]

/-- A second fixed 12-byte IV. -/
def iv1 : List Nat := [1, 0, 0, 0, 0, 0, 0, 0, 0, 0, 0, 0]

/-- A concrete IV supply: IV number i has first byte i mod 256. -/
def exIvs (i : Nat) : List Nat := (i % 256) :: [0, 0, 0, 0, 0, 0, 0, 0, 0, 0, 0]

/-- A concrete salt. -/
def exSalt : String := "ab12"

/-- The key derived from the master password of the example store. -/
def exKey : List Nat := deriveKey "Passw0rd!" exSalt

/-- A Ready example store with two credentials encrypted under exKey. -/
def exStore : Store :=
  ⟨true, true, true, true, [⟨hashDerivedKey exKey, exSalt⟩],
   [⟨"github", "alice", encrypt "s3cret" exKey iv0⟩,
    ⟨"mail", "bob", encrypt "pw2" exKey iv1⟩]⟩

/-- A store whose database file does not exist. -/
def noDbStore : Store := ⟨false, true, false, false, [], []⟩

/-- A store whose file exists with an intact database but no tables yet. -/
def uninitStore : Store := ⟨true, true, false, false, [], []⟩

/-- A corrupted store: both tables present and consistent, but two master
rows. -/
def corruptStore : Store :=
  ⟨true, true, true, true, [⟨"h1", "s1"⟩, ⟨"h2", "s2"⟩], [⟨"svc", "u", "ct"⟩]⟩

/-- A record set that is control-character free but contains a comma in a
field. -/
def commaRecs : List CsvRecord := [⟨"a,b", "c", "d"⟩]

/-- The CSV text buildCsv produces for commaRecs. -/
def commaCsv : String := "service,username,password\na,b,c,d"

/-- A well-formed two-record CSV text in the export format. -/
def goodCsv : String := "service,username,password\nnew1,u1,p1\nnew2,u2,p2"

/-- A concrete 256-bit (32-byte) key. -/
def exKey32 : List Nat := List.replicate 32 7

/-- A CSV text that starts with a byte-order mark and is therefore rejected
by the strict parser. -/
def bomCsv : String := "\uFEFFservice,username,password"

/-! ## Lemmas: split and join -/

/-- Splitting never yields the empty group list. -/
theorem splitOnChar_ne_nil (sep : Char) (l : List Char) : splitOnChar sep l ≠ [] := by
  induction l with
  | nil => simp [splitOnChar]
  | cons c rest ih =>
    simp only [splitOnChar]
    split
    · simp
    · split
      · simp
      · simp

/-- A list without the separator splits to itself as the only group. -/
theorem splitOnChar_of_not_mem (sep : Char) (l : List Char) (h : sep ∉ l) :
    splitOnChar sep l = [l] := by
  induction l with
  | nil => rfl
  | cons c rest ih =>
    simp only [List.mem_cons, not_or] at h
    simp only [splitOnChar]
    rw [if_neg fun hc => h.1 hc.symm, ih h.2]

/-- Splitting a list that starts with a separator-free group followed by the
separator peels that group off. -/
theorem splitOnChar_append_cons (sep : Char) (g rest : List Char) (h : sep ∉ g) :
    splitOnChar sep (g ++ sep :: rest) = g :: splitOnChar sep rest := by
  induction g with
  | nil => simp [splitOnChar]
  | cons c g2 ih =>
    simp only [List.mem_cons, not_or] at h
    simp only [List.cons_append, splitOnChar, List.append_eq]
    rw [if_neg fun hc => h.1 hc.symm, ih h.2]

/-- Splitting inverts joining for a non-empty family of separator-free
groups. -/
theorem splitOnChar_joinWith (sep : Char) (gs : List (List Char)) (hne : gs ≠ [])
    (h : ∀ g ∈ gs, sep ∉ g) : splitOnChar sep (joinWith sep gs) = gs := by
  induction gs with
  | nil => exact absurd rfl hne
  | cons g gs2 ih =>
    cases gs2 with
    | nil =>
      exact splitOnChar_of_not_mem sep g (h g (by simp))
    | cons g2 gs3 =>
      show splitOnChar sep (g ++ sep :: joinWith sep (g2 :: gs3)) = _
      rw [splitOnChar_append_cons sep g _ (h g (by simp))]
      rw [ih (by simp) fun x hx => h x (List.mem_cons_of_mem g hx)]

/-- Every character of a join is the separator or lies in one group. -/
theorem mem_joinWith (sep : Char) (gs : List (List Char)) (c : Char)
    (hc : c ∈ joinWith sep gs) : c = sep ∨ ∃ g ∈ gs, c ∈ g := by
  induction gs with
  | nil => simp [joinWith] at hc
  | cons g gs2 ih =>
    cases gs2 with
    | nil =>
      exact Or.inr ⟨g, by simp, hc⟩
    | cons g2 gs3 =>
      simp only [joinWith, List.mem_append, List.mem_cons] at hc
      rcases hc with hg | hsep | hrest
      · exact Or.inr ⟨g, by simp, hg⟩
      · exact Or.inl hsep
      · rcases ih hrest with h1 | ⟨g3, hg3, hcg3⟩
        · exact Or.inl h1
        · exact Or.inr ⟨g3, List.mem_cons_of_mem g hg3, hcg3⟩

/-! ## Lemmas: CSV codec -/

/-- Rebuilding a string from its characters is the identity. -/
theorem mk_data (s : String) : String.mk s.data = s := by
  cases s
  rfl

/-- A control-character-free string contains none of tab, CR, LF. -/
theorem not_mem_of_no_ctrl (cs : List Char) (h : hasCtrlCharList cs = false) :
    '\t' ∉ cs ∧ '\r' ∉ cs ∧ '\n' ∉ cs := by
  simp only [hasCtrlCharList, List.any_eq_false, isCtrlChar] at h
  refine ⟨fun hm => ?_, fun hm => ?_, fun hm => ?_⟩
  · simpa using h _ hm
  · simpa using h _ hm
  · simpa using h _ hm

/-- The characters of a CSV data line. -/
theorem csvLine_data (r : CsvRecord) :
    (csvLine r).data
      = r.service.data ++ ',' :: (r.username.data ++ ',' :: r.password.data) := by
  simp [csvLine, String.data_append]

/-- With control-character-free fields, the buildCsv loop succeeds and yields
one line per record. -/
theorem buildCsvLines_ok (records : List CsvRecord)
    (h : ∀ r ∈ records, hasControlChar r.service = false
      ∧ hasControlChar r.username = false ∧ hasControlChar r.password = false) :
    buildCsvLines records = .ok (records.map csvLine) := by
  induction records with
  | nil => rfl
  | cons r rs ih =>
    obtain ⟨h1, h2, h3⟩ := h r (by simp)
    simp only [buildCsvLines, h1, h2, h3, Bool.or_self]
    rw [if_neg (by simp)]
    rw [ih fun x hx => h x (List.mem_cons_of_mem r hx)]
    rfl

/-- A comma-free field triple splits back out of its CSV line. -/
theorem splitOnChar_csvLine (r : CsvRecord)
    (hs : ',' ∉ r.service.data) (hu : ',' ∉ r.username.data)
    (hp : ',' ∉ r.password.data) :
    splitOnChar ',' (csvLine r).data = [r.service.data, r.username.data, r.password.data] := by
  rw [csvLine_data]
  rw [splitOnChar_append_cons ',' _ _ hs]
  rw [splitOnChar_append_cons ',' _ _ hu]
  rw [splitOnChar_of_not_mem ',' _ hp]

/-- The parse loop inverts the build loop for safe records, from any starting
line number. -/
theorem parseDataLines_map (records : List CsvRecord) (n : Nat)
    (h : ∀ r ∈ records, hasControlChar r.service = false
      ∧ hasControlChar r.username = false ∧ hasControlChar r.password = false
      ∧ ',' ∉ r.service.data ∧ ',' ∉ r.username.data ∧ ',' ∉ r.password.data) :
    parseDataLines n (records.map fun r => (csvLine r).data) = .ok records := by
  induction records generalizing n with
  | nil => rfl
  | cons r rs ih =>
    obtain ⟨h1, h2, h3, h4, h5, h6⟩ := h r (by simp)
    have hline : (csvLine r).data ≠ [] := by
      rw [csvLine_data]
      simp
    simp only [List.map_cons, parseDataLines]
    rw [if_neg hline, splitOnChar_csvLine r h4 h5 h6]
    simp only [hasControlChar] at h1 h2 h3
    simp only [h1, h2, h3, Bool.or_self]
    rw [if_neg (by simp)]
    rw [ih n.succ fun x hx => h x (List.mem_cons_of_mem r hx)]

/-- The header line is not empty, has no CR, LF or comma issues, and starts
with the letter s. -/
theorem csvHeader_facts :
    csvHeader.data ≠ [] ∧ '\r' ∉ csvHeader.data ∧ '\n' ∉ csvHeader.data := by
  refine ⟨by decide, by decide, by decide⟩

/-- A CSV line built from control-character-free fields contains no CR and no
LF. -/
theorem csvLine_no_crlf (r : CsvRecord)
    (h1 : hasControlChar r.service = false) (h2 : hasControlChar r.username = false)
    (h3 : hasControlChar r.password = false) :
    '\r' ∉ (csvLine r).data ∧ '\n' ∉ (csvLine r).data := by
  obtain ⟨-, hr1, hn1⟩ := not_mem_of_no_ctrl _ h1
  obtain ⟨-, hr2, hn2⟩ := not_mem_of_no_ctrl _ h2
  obtain ⟨-, hr3, hn3⟩ := not_mem_of_no_ctrl _ h3
  rw [csvLine_data]
  constructor
  · intro hm
    simp only [List.mem_append, List.mem_cons] at hm
    rcases hm with hm | hm | hm | hm | hm
    · exact hr1 hm
    · exact absurd hm (by decide)
    · exact hr2 hm
    · exact absurd hm (by decide)
    · exact hr3 hm
  · intro hm
    simp only [List.mem_append, List.mem_cons] at hm
    rcases hm with hm | hm | hm | hm | hm
    · exact hn1 hm
    · exact absurd hm (by decide)
    · exact hn2 hm
    · exact absurd hm (by decide)
    · exact hn3 hm

/-- The first character of the joined CSV text is the letter s of the
header. -/
theorem joinWith_header_head (ls : List (List Char)) :
    (joinWith '\n' (csvHeader.data :: ls)).head? = some 's' := by
  cases ls with
  | nil => rfl
  | cons a b => rfl

/-- Full round trip: building the CSV for safe records succeeds, and parsing
the produced text returns exactly the original records. -/
theorem parse_build (records : List CsvRecord)
    (h : ∀ r ∈ records, hasControlChar r.service = false
      ∧ hasControlChar r.username = false ∧ hasControlChar r.password = false
      ∧ ',' ∉ r.service.data ∧ ',' ∉ r.username.data ∧ ',' ∉ r.password.data) :
    buildCsv records = .ok (joinLines (csvHeader :: records.map csvLine))
      ∧ parseCsvFileStrict (joinLines (csvHeader :: records.map csvLine))
          = .ok records := by
  have hb : buildCsvLines records = .ok (records.map csvLine) :=
    buildCsvLines_ok records fun r hr => ⟨(h r hr).1, (h r hr).2.1, (h r hr).2.2.1⟩
  refine ⟨by simp only [buildCsv, hb], ?_⟩
  have hdata : (joinLines (csvHeader :: records.map csvLine)).data
      = joinWith '\n' (csvHeader.data :: records.map fun r => (csvLine r).data) := by
    simp [joinLines, List.map_map, Function.comp_def]
  have hgroups : ∀ g ∈ csvHeader.data :: records.map fun r => (csvLine r).data,
      '\n' ∉ g := by
    intro g hg
    rcases List.mem_cons.mp hg with rfl | hg2
    · exact csvHeader_facts.2.2
    · obtain ⟨r, hr, rfl⟩ := List.mem_map.mp hg2
      obtain ⟨h1, h2, h3, -⟩ := h r hr
      exact (csvLine_no_crlf r h1 h2 h3).2
  have hnocr : '\r' ∉ (joinLines (csvHeader :: records.map csvLine)).data := by
    rw [hdata]
    intro hmem
    rcases mem_joinWith _ _ _ hmem with heq | ⟨g, hg, hcg⟩
    · exact absurd heq (by decide)
    · rcases List.mem_cons.mp hg with rfl | hg2
      · exact csvHeader_facts.2.1 hcg
      · obtain ⟨r, hr, rfl⟩ := List.mem_map.mp hg2
        obtain ⟨h1, h2, h3, -⟩ := h r hr
        exact (csvLine_no_crlf r h1 h2 h3).1 hcg
  have hbom : (joinLines (csvHeader :: records.map csvLine)).data.head?
      = some 's' := by
    rw [hdata]
    exact joinWith_header_head _
  have hsplit : splitOnChar '\n' (joinLines (csvHeader :: records.map csvLine)).data
      = csvHeader.data :: records.map fun r => (csvLine r).data := by
    rw [hdata]
    exact splitOnChar_joinWith '\n' _ (by simp) hgroups
  simp only [parseCsvFileStrict]
  rw [hbom, if_neg (by decide), if_neg hnocr, hsplit]
  simp only [parseCsvLines]
  rw [if_neg csvHeader_facts.1, if_neg (by simp)]
  exact parseDataLines_map records 2 h

/-! ## Lemmas: UTF-8 -/

/-- Every Unicode scalar value is below 0x110000. -/
theorem char_toNat_lt (c : Char) : c.toNat < 1114112 := by
  rcases c.valid with h | ⟨h1, h2⟩
  · exact Nat.lt_trans h (by norm_num)
  · exact h2

/-- UTF-8 encoding produces bytes. -/
theorem utf8EncodeChar_lt (c : Char) : ∀ b ∈ utf8EncodeChar c, b < 256 := by
  have hv := char_toNat_lt c
  intro b hb
  simp only [utf8EncodeChar] at hb
  split_ifs at hb <;> simp only [List.mem_cons, List.mem_singleton] at hb <;>
    rcases hb with rfl | hb <;> first | omega |
    (rcases hb with rfl | hb <;> first | omega |
      (rcases hb with rfl | hb <;> first | omega |
        (rcases hb with rfl | hb <;> first | omega | simp_all)))

/-- Decoding steps over one encoded character, for any fuel amount: one unit
of fuel is consumed per character. -/
theorem utf8DecodeFuel_encodeChar (c : Char) (rest : List Nat) (fuel : Nat) :
    utf8DecodeFuel (fuel + 1) (utf8EncodeChar c ++ rest)
      = (utf8DecodeFuel fuel rest).map fun cs => c :: cs := by
  have hofNat := Char.ofNat_toNat c
  have hv : c.toNat < 1114112 := char_toNat_lt c
  simp only [utf8EncodeChar]
  by_cases h1 : c.toNat < 0x80
  · rw [if_pos h1]
    simp only [List.cons_append, List.nil_append]
    rw [utf8DecodeFuel]
    simp only [utf8DecodeLead]
    rw [if_pos h1]
    dsimp only
    rw [hofNat]
  · rw [if_neg h1]
    by_cases h2 : c.toNat < 0x800
    · rw [if_pos h2]
      simp only [List.cons_append, List.nil_append]
      rw [utf8DecodeFuel]
      simp only [utf8DecodeLead]
      rw [if_neg (by omega), if_neg (by omega), if_pos (by omega)]
      rw [if_pos (by omega)]
      dsimp only
      have ha : (0xC0 + c.toNat / 64 - 0xC0) * 64 + (0x80 + c.toNat % 64 - 0x80)
          = c.toNat := by omega
      rw [ha, hofNat]
    · rw [if_neg h2]
      by_cases h3 : c.toNat < 0x10000
      · rw [if_pos h3]
        simp only [List.cons_append, List.nil_append]
        rw [utf8DecodeFuel]
        simp only [utf8DecodeLead]
        rw [if_neg (by omega), if_neg (by omega), if_neg (by omega),
          if_pos (by omega)]
        rw [if_pos (by omega)]
        dsimp only
        have ha : (0xE0 + c.toNat / 4096 - 0xE0) * 4096
            + (0x80 + c.toNat / 64 % 64 - 0x80) * 64
            + (0x80 + c.toNat % 64 - 0x80) = c.toNat := by omega
        rw [ha, hofNat]
      · rw [if_neg h3]
        simp only [List.cons_append, List.nil_append]
        rw [utf8DecodeFuel]
        simp only [utf8DecodeLead]
        rw [if_neg (by omega), if_neg (by omega), if_neg (by omega),
          if_neg (by omega), if_pos (by omega)]
        rw [if_pos (by omega)]
        dsimp only
        have ha : (0xF0 + c.toNat / 262144 - 0xF0) * 262144
            + (0x80 + c.toNat / 4096 % 64 - 0x80) * 4096
            + (0x80 + c.toNat / 64 % 64 - 0x80) * 64
            + (0x80 + c.toNat % 64 - 0x80) = c.toNat := by omega
        rw [ha, hofNat]

/-- Decoding inverts encoding on whole character lists whenever the fuel
covers the character count. -/
theorem utf8DecodeFuel_flatten (l : List Char) (fuel : Nat)
    (hf : l.length ≤ fuel) :
    utf8DecodeFuel fuel ((l.map utf8EncodeChar).flatten) = some l := by
  induction l generalizing fuel with
  | nil =>
    cases fuel with
    | zero => rfl
    | succ f => rfl
  | cons c cs ih =>
    cases fuel with
    | zero => simp at hf
    | succ f =>
      simp only [List.map_cons, List.flatten_cons, utf8DecodeFuel_encodeChar]
      rw [ih f (by simp only [List.length_cons] at hf; omega)]
      rfl

/-- Each character encodes to at least one byte. -/
theorem utf8EncodeChar_length_pos (c : Char) : 1 ≤ (utf8EncodeChar c).length := by
  simp only [utf8EncodeChar]
  split_ifs <;> simp

/-- An encoded character list is at least as long as the list itself. -/
theorem utf8Encode_length_ge (l : List Char) :
    l.length ≤ ((l.map utf8EncodeChar).flatten).length := by
  induction l with
  | nil => simp
  | cons c cs ih =>
    simp only [List.map_cons, List.flatten_cons, List.length_append,
      List.length_cons]
    have := utf8EncodeChar_length_pos c
    omega

/-- Decoding inverts encoding on strings. -/
theorem utf8DecodeChars_utf8Encode (s : String) :
    utf8DecodeChars (utf8Encode s) = some s.data := by
  unfold utf8DecodeChars
  exact utf8DecodeFuel_flatten s.data _ (utf8Encode_length_ge s.data)

/-- Encoded strings consist of bytes. -/
theorem utf8Encode_lt (s : String) : ∀ b ∈ utf8Encode s, b < 256 := by
  intro b hb
  simp only [utf8Encode, List.mem_flatten, List.mem_map] at hb
  obtain ⟨l, ⟨c, hc, rfl⟩, hbl⟩ := hb
  exact utf8EncodeChar_lt c b hbl

/-! ## Lemmas: base64 -/

/-- Looking up the character of a 6-bit value recovers the value. -/
theorem b64Value_b64Char : ∀ n, n < 64 → b64Value (b64Char n) = some n := by
  decide

/-- No 6-bit value maps to the padding character. -/
theorem b64Char_ne_pad : ∀ n, n < 64 → ¬ b64Char n = '=' := by
  decide

/-- Base64 decoding inverts encoding on byte lists. -/
theorem b64Decode_b64Encode :
    ∀ (bs : List Nat), (∀ b ∈ bs, b < 256) → b64Decode (b64Encode bs) = some bs
  | [], _ => rfl
  | [a], h => by
    have ha : a < 256 := h a (by simp)
    simp only [b64Encode, b64Decode, b64Value_b64Char (a / 4) (by omega),
      b64Value_b64Char (a % 4 * 16) (by omega)]
    rw [if_pos (by simp)]
    have : a / 4 * 4 + a % 4 * 16 / 16 = a := by omega
    rw [this]
  | [a, b], h => by
    have ha : a < 256 := h a (by simp)
    have hb : b < 256 := h b (by simp)
    have hne : ¬ b64Char (b % 16 * 4) = '=' := b64Char_ne_pad _ (by omega)
    simp only [b64Encode, b64Decode, b64Value_b64Char (a / 4) (by omega),
      b64Value_b64Char (a % 4 * 16 + b / 16) (by omega),
      b64Value_b64Char (b % 16 * 4) (by omega)]
    rw [if_neg (by simp [hne]), if_pos (by simp)]
    have e1 : a / 4 * 4 + (a % 4 * 16 + b / 16) / 16 = a := by omega
    have e2 : (a % 4 * 16 + b / 16) % 16 * 16 + b % 16 * 4 / 4 = b := by omega
    rw [e1, e2]
  | a :: b :: c :: rest, h => by
    have ha : a < 256 := h a (by simp)
    have hb : b < 256 := h b (by simp)
    have hc : c < 256 := h c (by simp)
    have hne3 : ¬ b64Char (b % 16 * 4 + c / 64) = '=' := b64Char_ne_pad _ (by omega)
    have hne4 : ¬ b64Char (c % 64) = '=' := b64Char_ne_pad _ (by omega)
    have ih := b64Decode_b64Encode rest fun x hx => h x (by simp [hx])
    simp only [b64Encode, b64Decode, b64Value_b64Char (a / 4) (by omega),
      b64Value_b64Char (a % 4 * 16 + b / 16) (by omega),
      b64Value_b64Char (b % 16 * 4 + c / 64) (by omega),
      b64Value_b64Char (c % 64) (by omega)]
    rw [if_neg (by simp [hne3]), if_neg (by simp [hne4]), ih]
    have e1 : a / 4 * 4 + (a % 4 * 16 + b / 16) / 16 = a := by omega
    have e2 : (a % 4 * 16 + b / 16) % 16 * 16 + (b % 16 * 4 + c / 64) / 4 = b := by
      omega
    have e3 : (b % 16 * 4 + c / 64) % 4 * 64 + c % 64 = c := by omega
    rw [Option.map_some', e1, e2, e3]

/-! ## Lemmas: keystream and tag -/

/-- Applying the keystream XOR twice from the same position is the
identity. -/
theorem xorStream_xorStream (key iv : List Nat) :
    ∀ (i : Nat) (bs : List Nat), xorStream key iv i (xorStream key iv i bs) = bs := by
  intro i bs
  induction bs generalizing i with
  | nil => rfl
  | cons b rest ih => simp [xorStream, Nat.xor_cancel_right, ih]

/-- The keystream XOR maps bytes to bytes. -/
theorem xorStream_lt (key iv : List Nat) :
    ∀ (i : Nat) (bs : List Nat), (∀ b ∈ bs, b < 256) →
      ∀ b ∈ xorStream key iv i bs, b < 256 := by
  intro i bs
  induction bs generalizing i with
  | nil => simp [xorStream]
  | cons b rest ih =>
    intro hbs x hx
    simp only [xorStream, List.mem_cons] at hx
    rcases hx with rfl | hx
    · have h1 : b < 2 ^ 8 := by
        have := hbs b (by simp)
        omega
      have h2 : keystreamByte key iv i < 2 ^ 8 := by
        have : keystreamByte key iv i < 256 := Nat.mod_lt _ (by omega)
        omega
      have := Nat.xor_lt_two_pow h1 h2
      omega
    · exact ih (i + 1) (fun y hy => hbs y (by simp [hy])) x hx

/-- The authentication tag is sixteen bytes long. -/
theorem gcmTag_length (key iv ct : List Nat) : (gcmTag key iv ct).length = 16 := by
  simp [gcmTag]

/-- The authentication tag consists of bytes. -/
theorem gcmTag_lt (key iv ct : List Nat) : ∀ b ∈ gcmTag key iv ct, b < 256 := by
  intro b hb
  simp only [gcmTag, List.mem_map] at hb
  obtain ⟨i, hi, rfl⟩ := hb
  exact Nat.mod_lt _ (by omega)

/-! ## Lemmas: state machine and gatekeeping -/

/-- In the Ready state the gate lets a command through. -/
theorem requireReadyState_of_ready (s : Store) (h : checkDbState s = .ready) :
    requireReadyState s = none := by
  simp [requireReadyState, h]

/-- Outside the Ready state the gate blocks with the corresponding
outcome. -/
theorem requireReadyState_of_not_ready (s : Store) (h : checkDbState s ≠ .ready) :
    requireReadyState s = some (notReadyOutcome (checkDbState s)) := by
  unfold requireReadyState notReadyOutcome
  cases hc : checkDbState s <;> simp_all

/-- In the Ready state the master row exists. -/
theorem masterRows_of_ready (s : Store) (h : checkDbState s = .ready) :
    ∃ row, s.masterRows = [row] := by
  unfold checkDbState at h
  split_ifs at h <;> simp_all
  cases hm : s.masterRows with
  | nil => simp_all
  | cons a tl =>
    cases tl with
    | nil => exact ⟨a, rfl⟩
    | cons b tl2 => simp_all

/-! ## Lemmas: the list ordering -/

/-- The lexicographic comparison is total. -/
theorem lexLe_total : ∀ (a b : List Char), lexLe a b = true ∨ lexLe b a = true
  | [], _ => Or.inl rfl
  | _ :: _, [] => Or.inr rfl
  | a :: as, b :: bs => by
    by_cases h1 : a.toNat < b.toNat
    · left
      simp [lexLe, h1]
    · by_cases h2 : b.toNat < a.toNat
      · right
        simp [lexLe, h2]
      · rcases lexLe_total as bs with h | h
        · left
          simp [lexLe, h1, h2, h]
        · right
          simp [lexLe, h1, h2, h]

/-- The lexicographic comparison is transitive. -/
theorem lexLe_trans : ∀ (a b c : List Char),
    lexLe a b = true → lexLe b c = true → lexLe a c = true
  | [], _, _ => by
    intro _ _
    rfl
  | _ :: _, [], _ => by
    intro h _
    simp [lexLe] at h
  | _ :: _, _ :: _, [] => by
    intro _ h
    simp [lexLe] at h
  | a :: as, b :: bs, c :: cs => by
    intro h1 h2
    simp only [lexLe] at h1 h2 ⊢
    split_ifs at h1 h2 ⊢ <;>
      first
        | rfl
        | omega
        | exact lexLe_trans as bs cs h1 h2

/-! ## Lemmas: command case analyses -/

/-- Every run of cmdChangeMaster either leaves the store untouched or reports
success. -/
theorem changeMaster_cases (s : Store) (oldPw newPw newSalt : String)
    (ivs : Nat → List Nat) (failAt : Nat → Bool) :
    (cmdChangeMaster s oldPw newPw newSalt ivs failAt).2 = s
    ∨ (cmdChangeMaster s oldPw newPw newSalt ivs failAt).1
        = ⟨.ok, .masterChanged⟩ := by
  unfold cmdChangeMaster
  dsimp only
  repeat' split
  all_goals first | exact Or.inl rfl | exact Or.inr rfl

/-- Every run of cmdImport either leaves the store untouched or reports the
count of imported records. -/
theorem import_cases (s : Store) (text masterPw : String) (confirm : Bool)
    (ivs : Nat → List Nat) (failAt : Nat → Bool) :
    (cmdImport s text masterPw confirm ivs failAt).2 = s
    ∨ ∃ n, (cmdImport s text masterPw confirm ivs failAt).1 = ⟨.ok, .imported n⟩ := by
  unfold cmdImport
  dsimp only
  repeat' split
  all_goals first | exact Or.inl rfl | exact Or.inr ⟨_, rfl⟩

/-! ## Claims -/

/-- C6: checkDbState classifies the persisted state: NoStore exactly when no
database file exists; Corrupted exactly when the file exists and the
integrity check fails, or exactly one of the two tables exists, or the master
table holds more than one row; Uninitialized exactly when storage is intact
and the master table is absent (with the credentials table also absent) or
holds zero rows; Ready exactly when both tables exist, the integrity check
passes, and the master table holds exactly one row. -/
theorem checkDbState_classification (s : Store) :
    (checkDbState s = .noDb ↔ ¬ s.fileExists)
    ∧ (checkDbState s = .corrupted ↔ s.fileExists ∧ (¬ s.integrityOk
        ∨ s.hasMasterTable ≠ s.hasCredTable
        ∨ (s.hasMasterTable ∧ s.hasCredTable ∧ 2 ≤ s.masterRows.length)))
    ∧ (checkDbState s = .uninitialized ↔ s.fileExists ∧ s.integrityOk
        ∧ ((¬ s.hasMasterTable ∧ ¬ s.hasCredTable)
            ∨ (s.hasMasterTable ∧ s.hasCredTable ∧ s.masterRows.length = 0)))
    ∧ (checkDbState s = .ready ↔ s.fileExists ∧ s.integrityOk
        ∧ s.hasMasterTable ∧ s.hasCredTable ∧ s.masterRows.length = 1) := by
  obtain ⟨fe, io, hm, hc, mr, cr⟩ := s
  cases fe <;> cases io <;> cases hm <;> cases hc <;>
    simp_all [checkDbState] <;>
    split_ifs <;> simp_all [← List.length_eq_zero] <;> omega

/-- C7 counterexample: in a Corrupted store (two master rows, both tables
present, integrity ok) the status command does not fail fatally — it succeeds
and reports the credential count, because cmdStatus only checks that the
database file exists. -/
theorem status_not_gated_counterexample :
    checkDbState corruptStore = .corrupted
      ∧ cmdStatus corruptStore = (⟨.ok, .statusReport 1⟩, corruptStore) := by
  exact ⟨by decide, by decide⟩

/-- C7 (amended): init is legal only from NoStore or Uninitialized, failing
with already-initialized from Ready and fatally from Corrupted with no
mutation; add, get, del, list, export, import and rotate-master all require
the Ready state, failing with the not-initialized error from NoStore and
Uninitialized and fatally from Corrupted, always with no mutation; status is
the exception — it only requires the database file to exist (failing with the
not-initialized error when the file is absent) and does not consult the state
machine. -/
theorem ready_gatekeeping (s : Store) (a b pw oldPw newPw salt text : String)
    (iv : List Nat) (ivs : Nat → List Nat) (failAt : Nat → Bool)
    (sortArgs : Option (String × String)) (confirm : Bool)
    (extOk isDir dirOk targetEx : Bool) (choice : Char) :
    (checkDbState s = .ready →
      cmdInit s pw salt failAt = (⟨.generalError, .dbAlreadyInitialized⟩, s))
    ∧ (checkDbState s = .corrupted →
      cmdInit s pw salt failAt = (⟨.ioDbError, .dbCorrupted⟩, s))
    ∧ (checkDbState s ≠ .ready →
        cmdAdd s a b pw oldPw iv failAt = (notReadyOutcome (checkDbState s), s)
        ∧ cmdGet s a b pw = (notReadyOutcome (checkDbState s), s)
        ∧ cmdDel s a b pw failAt = (notReadyOutcome (checkDbState s), s)
        ∧ cmdList s sortArgs = (notReadyOutcome (checkDbState s), s)
        ∧ cmdExport s extOk isDir dirOk targetEx choice pw
            = (notReadyOutcome (checkDbState s), s)
        ∧ cmdImport s text pw confirm ivs failAt
            = (notReadyOutcome (checkDbState s), s)
        ∧ cmdChangeMaster s oldPw newPw salt ivs failAt
            = (notReadyOutcome (checkDbState s), s))
    ∧ (¬ s.fileExists → cmdStatus s = (⟨.ioDbError, .dbNotInitialized⟩, s)) := by
  refine ⟨?_, ?_, ?_, ?_⟩
  · intro h
    simp [cmdInit, h]
  · intro h
    simp [cmdInit, h]
  · intro h
    have hr := requireReadyState_of_not_ready s h
    exact ⟨by simp [cmdAdd, hr], by simp [cmdGet, hr], by simp [cmdDel, hr],
      by simp [cmdList, hr], by simp [cmdExport, hr], by simp [cmdImport, hr],
      by simp [cmdChangeMaster, hr]⟩
  · intro h
    simp [cmdStatus, h]

/-- C7 witness: the gatekeeping theorem evaluated on concrete stores — add on
an uninitialized store is blocked with the not-initialized error, init on a
corrupted store fails fatally, and status without a database file reports not
initialized. -/
theorem ready_gatekeeping_witness :
    cmdAdd uninitStore "svc" "user" "pw" "master" iv0 (fun _ => false)
      = (⟨.ioDbError, .dbNotInitialized⟩, uninitStore)
    ∧ cmdInit corruptStore "pw" "salt" (fun _ => false)
      = (⟨.ioDbError, .dbCorrupted⟩, corruptStore)
    ∧ cmdStatus noDbStore = (⟨.ioDbError, .dbNotInitialized⟩, noDbStore) := by
  refine ⟨?_, ?_, ?_⟩
  · exact ((ready_gatekeeping uninitStore "svc" "user" "pw" "master" "y" "z" "t" iv0
      (fun _ => iv0) (fun _ => false) none true true true true true
      'c').2.2.1 (by decide)).1
  · exact (ready_gatekeeping corruptStore "a" "b" "pw" "x" "y" "salt" "t" iv0
      (fun _ => iv0) (fun _ => false) none true true true true true
      'c').2.1 (by decide)
  · exact (ready_gatekeeping noDbStore "a" "b" "pw" "x" "y" "z" "t" iv0
      (fun _ => iv0) (fun _ => false) none true true true true true
      'c').2.2.2 (by decide)

/-- C9: cmdAdd applies the control-character check to the password argument
too: on a Ready store, whenever the password contains a tab, carriage return
or newline, add fails with the control-character error for every master
password (correct or not, since the check runs before verification), and the
store is unchanged — no credential is inserted. -/
theorem add_control_char_first (s : Store)
    (service username password masterPw : String)
    (iv : List Nat) (failAt : Nat → Bool)
    (hready : checkDbState s = .ready)
    (hctrl : hasControlChar password = true) :
    cmdAdd s service username password masterPw iv failAt
      = (⟨.generalError, .controlChar⟩, s) := by
  have hr := requireReadyState_of_ready s hready
  simp [cmdAdd, hr, hctrl]

/-- C9 witness: adding a password containing a tab on the concrete Ready
store fails with the control-character error even under a wrong master
password and leaves the store unchanged. -/
theorem add_control_char_first_witness :
    checkDbState exStore = .ready ∧ hasControlChar "p\tw" = true
      ∧ cmdAdd exStore "svc" "user" "p\tw" "wrongpw" iv0 (fun _ => false)
          = (⟨.generalError, .controlChar⟩, exStore) :=
  ⟨by decide, by decide,
    add_control_char_first exStore "svc" "user" "p\tw" "wrongpw" iv0
      (fun _ => false) (by decide) (by decide)⟩

/-- C10 helper: binary-collation comparison of strings is transitive. -/
theorem strLe_trans (a b c : String) :
    strLe a b = true → strLe b c = true → strLe a c = true :=
  lexLe_trans a.data b.data c.data

/-- C10 helper: binary-collation comparison of strings is total. -/
theorem strLe_total (a b : String) : (strLe a b || strLe b a) = true := by
  rcases lexLe_total a.data b.data with h | h <;> simp [strLe, h]

/-- C10: on a Ready store, cmdList without sort options behaves exactly like
the explicit ascending-by-service invocation — the unspecified default sort
is service ascending: the store is untouched, an empty store reports no
data, and otherwise the listed (service, username) pairs are a permutation
of the stored pairs, sorted by service in ascending binary-collation
order. -/
theorem list_default_sort (s : Store) (hready : checkDbState s = .ready) :
    cmdList s none = cmdList s (some ("--asc", "service"))
    ∧ (cmdList s none).2 = s
    ∧ (s.credentials = [] → (cmdList s none).1 = ⟨.ok, .noData⟩)
    ∧ (s.credentials ≠ [] → (cmdList s none).1 = ⟨.ok, .listing
        ((s.credentials.mergeSort fun a b => strLe a.service b.service).map
          fun c => (c.service, c.username))⟩)
    ∧ ((s.credentials.mergeSort fun a b => strLe a.service b.service).map
          fun c => (c.service, c.username)).Perm
        (s.credentials.map fun c => (c.service, c.username))
    ∧ ((s.credentials.mergeSort fun a b => strLe a.service b.service).map
          fun c => (c.service, c.username)).Pairwise
        fun p q => strLe p.1 q.1 := by
  have hr := requireReadyState_of_ready s hready
  have hne : ("--asc" : String) ≠ "--desc" := by decide
  have hsu : ("service" : String) ≠ "username" := by decide
  have hlen : (s.credentials.mergeSort fun a b => strLe a.service b.service).length
      = s.credentials.length := (List.mergeSort_perm s.credentials _).length_eq
  refine ⟨?_, ?_, ?_, ?_, ?_, ?_⟩
  · simp [cmdList, hr, hne, hsu]
  · simp only [cmdList, hr]
    repeat' split
    all_goals rfl
  · intro h0
    simp [cmdList, hr, hsu, h0]
  · intro hne0
    have hpos : (s.credentials.mergeSort
        fun a b => strLe a.service b.service).length ≠ 0 := by
      rw [hlen]
      simpa using hne0
    simp [cmdList, hr, hsu, List.length_eq_zero, hpos, hne0]
  · exact (List.mergeSort_perm s.credentials _).map _
  · rw [List.pairwise_map]
    exact List.sorted_mergeSort
      (fun a b c h1 h2 => strLe_trans a.service b.service c.service h1 h2)
      (fun a b => strLe_total a.service b.service) s.credentials

/-- C10 witness: the default-sort theorem evaluated on the concrete Ready
store. -/
theorem list_default_sort_witness :
    checkDbState exStore = .ready
    ∧ cmdList exStore none = cmdList exStore (some ("--asc", "service")) :=
  ⟨by decide, (list_default_sort exStore (by decide)).1⟩

/-- C3 counterexample: on the concrete Ready store whose master password is
Passw0rd!, calling change-master with oldPw = newPw = B — a wrong old
password — exits successfully with masterUnchanged instead of failing
authentication: the equality short-circuit runs before the old password is
verified. -/
theorem rotate_noop_counterexample :
    verifyMasterPassword "B" exStore = .ok false
    ∧ cmdChangeMaster exStore "B" "B" "cd34" exIvs (fun _ => false)
        = (⟨.ok, .masterUnchanged⟩, exStore) := by
  exact ⟨by decide, by decide⟩

/-- C3 (amended): on a Ready store, change-master first compares the old and
the new password: when they are equal it short-circuits as a no-op — without
verifying the old password — performing no re-encryption and no write, so
salt, password hash and every ciphertext are unchanged; only when they
differ does it verify the old password, failing with the auth error and no
mutation when it is wrong. -/
theorem rotate_noop_short_circuit (s : Store) (oldPw newPw newSalt : String)
    (ivs : Nat → List Nat) (failAt : Nat → Bool)
    (hready : checkDbState s = .ready) :
    (oldPw = newPw →
      cmdChangeMaster s oldPw newPw newSalt ivs failAt
        = (⟨.ok, .masterUnchanged⟩, s))
    ∧ (oldPw ≠ newPw → verifyMasterPassword oldPw s = .ok false →
      cmdChangeMaster s oldPw newPw newSalt ivs failAt
        = (⟨.authError, .invalidOldMaster⟩, s)) := by
  have hr := requireReadyState_of_ready s hready
  constructor
  · intro he
    simp [cmdChangeMaster, hr, he]
  · intro hne hv
    simp [cmdChangeMaster, hr, hne, hv]

/-- C3 witness: the short-circuit theorem evaluated on the concrete store, in
both the equal-passwords case and the wrong-old-password case. -/
theorem rotate_noop_short_circuit_witness :
    cmdChangeMaster exStore "Passw0rd!" "Passw0rd!" "cd34" exIvs (fun _ => false)
      = (⟨.ok, .masterUnchanged⟩, exStore)
    ∧ cmdChangeMaster exStore "nope" "other" "cd34" exIvs (fun _ => false)
      = (⟨.authError, .invalidOldMaster⟩, exStore) :=
  ⟨(rotate_noop_short_circuit exStore "Passw0rd!" "Passw0rd!" "cd34" exIvs
      (fun _ => false) (by decide)).1 rfl,
   (rotate_noop_short_circuit exStore "nope" "other" "cd34" exIvs
      (fun _ => false) (by decide)).2 (by decide) (by decide)⟩

/-- C4 counterexample: on the concrete Ready store, an import call with a
wrong master password and a malformed CSV file reports the authentication
failure, not the file-validation error — cmdImport verifies the master
password before parsing the file. -/
theorem import_order_counterexample :
    verifyMasterPassword "wrong" exStore = .ok false
    ∧ parseCsvFileStrict "bad" = .error ⟨.generalError, .csvInvalidHeader "bad"⟩
    ∧ cmdImport exStore "bad" "wrong" true exIvs (fun _ => false)
        = (⟨.authError, .authFailed⟩, exStore) := by
  exact ⟨by decide, by decide, by decide⟩

/-- C4 (amended): on a Ready store, import verifies the master password
first — a wrong master password yields the auth failure regardless of the
file content — then parses and fully validates the CSV, reporting the
validation error with no mutation, and only then (when existing records are
non-empty) asks the destructive-replace confirmation, cancelling with no
mutation when it is refused. When both the master password is wrong and the
file is malformed, the reported failure is therefore the authentication
error. -/
theorem import_order_master_first (s : Store) (text masterPw : String)
    (confirm : Bool) (ivs : Nat → List Nat) (failAt : Nat → Bool)
    (hready : checkDbState s = .ready) :
    (verifyMasterPassword masterPw s = .ok false →
      cmdImport s text masterPw confirm ivs failAt
        = (⟨.authError, .authFailed⟩, s))
    ∧ (∀ e, verifyMasterPassword masterPw s = .ok true →
        parseCsvFileStrict text = .error e →
        cmdImport s text masterPw confirm ivs failAt = (e, s))
    ∧ (∀ records, verifyMasterPassword masterPw s = .ok true →
        parseCsvFileStrict text = .ok records → s.credentials ≠ [] →
        confirm = false →
        cmdImport s text masterPw confirm ivs failAt
          = (⟨.ok, .importCanceled⟩, s)) := by
  have hr := requireReadyState_of_ready s hready
  refine ⟨?_, ?_, ?_⟩
  · intro hv
    simp [cmdImport, hr, hv]
  · intro e hv hp
    simp [cmdImport, hr, hv, hp]
  · intro records hv hp hcred hconf
    have hpos : 0 < s.credentials.length := List.length_pos.mpr hcred
    simp [cmdImport, hr, hv, hp, hpos, hconf]

/-- C4 witness: the order theorem evaluated on the concrete store for all
three stages — wrong password with a bad file, correct password with a bad
file, and correct password with a refused confirmation. -/
theorem import_order_master_first_witness :
    cmdImport exStore "bad" "wrong" true exIvs (fun _ => false)
      = (⟨.authError, .authFailed⟩, exStore)
    ∧ cmdImport exStore "bad" "Passw0rd!" true exIvs (fun _ => false)
      = (⟨.generalError, .csvInvalidHeader "bad"⟩, exStore)
    ∧ cmdImport exStore goodCsv "Passw0rd!" false exIvs (fun _ => false)
      = (⟨.ok, .importCanceled⟩, exStore) :=
  ⟨(import_order_master_first exStore "bad" "wrong" true exIvs (fun _ => false)
      (by decide)).1 (by decide),
   (import_order_master_first exStore "bad" "Passw0rd!" true exIvs
      (fun _ => false) (by decide)).2.1 ⟨.generalError, .csvInvalidHeader "bad"⟩
      (by decide) (by decide),
   (import_order_master_first exStore goodCsv "Passw0rd!" false exIvs
      (fun _ => false) (by decide)).2.2
      [⟨"new1", "u1", "p1"⟩, ⟨"new2", "u2", "p2"⟩]
      (by decide) (by decide) (by decide) rfl⟩

/-- C5 counterexample: a record whose service field contains a comma has no
control characters, buildCsv accepts it, but parsing the produced text fails
with the invalid-format error instead of returning the record — the
round-trip claim fails for comma-containing fields. -/
theorem csv_round_trip_counterexample :
    hasControlChar "a,b" = false ∧ hasControlChar "c" = false
    ∧ hasControlChar "d" = false
    ∧ buildCsv commaRecs = .ok commaCsv
    ∧ parseCsvFileStrict commaCsv
        = .error ⟨.generalError, .invalidImportFormat⟩ := by
  exact ⟨by decide, by decide, by decide, by decide, by decide⟩

/-- C5 (amended): for every record list whose service, username and password
fields contain no control characters and no commas, buildCsv succeeds and
parseCsvFileStrict applied to the produced text returns exactly the original
records. -/
theorem csv_round_trip (records : List CsvRecord)
    (h : ∀ r ∈ records, hasControlChar r.service = false
      ∧ hasControlChar r.username = false ∧ hasControlChar r.password = false
      ∧ ',' ∉ r.service.data ∧ ',' ∉ r.username.data ∧ ',' ∉ r.password.data) :
    ∃ text, buildCsv records = .ok text
      ∧ parseCsvFileStrict text = .ok records :=
  ⟨joinLines (csvHeader :: records.map csvLine),
    (parse_build records h).1, (parse_build records h).2⟩

/-- C5 witness: the round trip evaluated on a concrete two-record list. -/
theorem csv_round_trip_witness :
    ∃ text, buildCsv [⟨"github", "alice", "s3cret"⟩, ⟨"mail", "bob", "pw2"⟩]
        = .ok text
      ∧ parseCsvFileStrict text
        = .ok [⟨"github", "alice", "s3cret"⟩, ⟨"mail", "bob", "pw2"⟩] :=
  csv_round_trip [⟨"github", "alice", "s3cret"⟩, ⟨"mail", "bob", "pw2"⟩]
    (by decide)

/-- C2 counterexample: an import call whose CSV file violates the strict
format (a byte-order mark) but whose master password is wrong does not fail
with the validation error — it fails with the authentication error, because
cmdImport verifies the master password before opening the file. The store is
still unchanged, so only the error-identity half of the claim fails. -/
theorem import_validation_error_counterexample :
    parseCsvFileStrict bomCsv = .error ⟨.generalError, .csvBomNotAllowed⟩
    ∧ cmdImport exStore bomCsv "badpw" true exIvs (fun _ => false)
        = (⟨.authError, .authFailed⟩, exStore) := by
  exact ⟨by decide, by decide⟩

/-- C2 (amended): import atomicity on a Ready store. First, for every CSV
text the strict parser rejects, an import under a verified master password
fails with exactly that specific validation error and the store is returned
unchanged — no credential was deleted or inserted, since parsing precedes
the transaction. Second, every import run that does not report the
successful imported-count outcome leaves the prior credential set as before:
the delete-all plus insert-all replacement is rolled back as a whole, so no
partial replace is ever observable. -/
theorem import_atomicity (s : Store) (text masterPw : String) (confirm : Bool)
    (ivs : Nat → List Nat) (failAt : Nat → Bool)
    (hready : checkDbState s = .ready) :
    (∀ e, verifyMasterPassword masterPw s = .ok true →
       parseCsvFileStrict text = .error e →
       cmdImport s text masterPw confirm ivs failAt = (e, s))
    ∧ ((∀ n, (cmdImport s text masterPw confirm ivs failAt).1.msg
          ≠ .imported n) →
        (cmdImport s text masterPw confirm ivs failAt).2 = s) := by
  have hr := requireReadyState_of_ready s hready
  constructor
  · intro e hv hp
    simp [cmdImport, hr, hv, hp]
  · intro hnot
    rcases import_cases s text masterPw confirm ivs failAt with h | ⟨n, h⟩
    · exact h
    · exact absurd (by rw [h]) (hnot n)

/-- C2 witness: on the concrete Ready store, a malformed file under the
correct master password fails with its validation error and no mutation, and
an import whose second insert is made to fail leaves the store unchanged. -/
theorem import_atomicity_witness :
    cmdImport exStore "bad" "Passw0rd!" true exIvs (fun _ => false)
      = (⟨.generalError, .csvInvalidHeader "bad"⟩, exStore)
    ∧ (cmdImport exStore goodCsv "Passw0rd!" true exIvs (fun i => i = 2)).2
      = exStore := by
  constructor
  · exact (import_atomicity exStore "bad" "Passw0rd!" true exIvs (fun _ => false)
      (by decide)).1 ⟨.generalError, .csvInvalidHeader "bad"⟩ (by decide)
      (by decide)
  · apply (import_atomicity exStore goodCsv "Passw0rd!" true exIvs
      (fun i => i = 2) (by decide)).2
    intro n
    have hx : (cmdImport exStore goodCsv "Passw0rd!" true exIvs
        (fun i => i = 2)).1 = ⟨.ioDbError, .importFailed⟩ := by decide
    simp [hx]

/-- C1: atomicity of master rotation. On a Ready store, whenever
change-master reports the rotation failure — for any failure point injected
by the failAt oracle, including a failure after inserting some but not all
of the re-encrypted records — the resulting store is byte-for-byte the
original: the master record (password hash and salt) and every original
ciphertext are unchanged, and the store still authenticates with the old
master password. -/
theorem rotation_atomicity (s : Store) (oldPw newPw newSalt : String)
    (ivs : Nat → List Nat) (failAt : Nat → Bool)
    (hready : checkDbState s = .ready)
    (hfail : (cmdChangeMaster s oldPw newPw newSalt ivs failAt).1
        = ⟨.generalError, .changeMasterFailed⟩) :
    (cmdChangeMaster s oldPw newPw newSalt ivs failAt).2 = s
    ∧ (cmdChangeMaster s oldPw newPw newSalt ivs failAt).2.masterRows
        = s.masterRows
    ∧ (cmdChangeMaster s oldPw newPw newSalt ivs failAt).2.credentials
        = s.credentials
    ∧ (verifyMasterPassword oldPw s = .ok true →
        verifyMasterPassword oldPw
          (cmdChangeMaster s oldPw newPw newSalt ivs failAt).2 = .ok true) := by
  rcases changeMaster_cases s oldPw newPw newSalt ivs failAt with h | h
  · exact ⟨h, by rw [h], by rw [h], fun hv => by rw [h]; exact hv⟩
  · rw [hfail] at h
    simp at h

/-- C1 witness: rotating the concrete two-record store with a failure
injected at the insertion of the second re-encrypted record reports the
rotation failure, leaves the store unchanged, and the old master password
still verifies. -/
theorem rotation_atomicity_witness :
    checkDbState exStore = .ready
    ∧ (cmdChangeMaster exStore "Passw0rd!" "NewPw!" "cd34" exIvs
        (fun i => i = 3)).1 = ⟨.generalError, .changeMasterFailed⟩
    ∧ (cmdChangeMaster exStore "Passw0rd!" "NewPw!" "cd34" exIvs
        (fun i => i = 3)).2 = exStore
    ∧ verifyMasterPassword "Passw0rd!"
        (cmdChangeMaster exStore "Passw0rd!" "NewPw!" "cd34" exIvs
          (fun i => i = 3)).2 = .ok true := by
  refine ⟨by decide, by decide, ?_, ?_⟩
  · exact (rotation_atomicity exStore "Passw0rd!" "NewPw!" "cd34" exIvs
      (fun i => i = 3) (by decide) (by decide)).1
  · exact (rotation_atomicity exStore "Passw0rd!" "NewPw!" "cd34" exIvs
      (fun i => i = 3) (by decide) (by decide)).2.2.2 (by decide)

/-- C8 helper: the characters of a rebuilt string. -/
theorem data_mk (cs : List Char) : (String.mk cs).data = cs := rfl

/-- C8: envelope round trip. For every plaintext p, every 256-bit key and
every fresh 12-byte nonce drawn by encrypt, the envelope is laid out as
nonce (12 bytes), tag (16 bytes), then ciphertext, base64-encoded, and
decrypt under the same key splits that envelope back apart, verifies the
tag and recovers exactly the original plaintext. -/
theorem envelope_round_trip (p : String) (key iv : List Nat)
    (hkeyLen : key.length = 32) (hkey : ∀ b ∈ key, b < 256)
    (hivLen : iv.length = 12) (hiv : ∀ b ∈ iv, b < 256) :
    decrypt (encrypt p key iv) key = .ok p := by
  have hct : ∀ b ∈ xorStream key iv 0 (utf8Encode p), b < 256 :=
    xorStream_lt key iv 0 (utf8Encode p) (utf8Encode_lt p)
  have htag : ∀ b ∈ gcmTag key iv (xorStream key iv 0 (utf8Encode p)), b < 256 :=
    gcmTag_lt key iv _
  have hall : ∀ b ∈ iv ++ gcmTag key iv (xorStream key iv 0 (utf8Encode p))
      ++ xorStream key iv 0 (utf8Encode p), b < 256 := by
    intro b hb
    rcases List.mem_append.mp hb with hb | hb
    · rcases List.mem_append.mp hb with hb | hb
      · exact hiv b hb
      · exact htag b hb
    · exact hct b hb
  have hTagLen : (gcmTag key iv (xorStream key iv 0 (utf8Encode p))).length = 16 :=
    gcmTag_length key iv _
  have hPreLen : (iv ++ gcmTag key iv (xorStream key iv 0 (utf8Encode p))).length
      = 28 := by
    rw [List.length_append, hivLen, hTagLen]
  have h1 : (iv ++ gcmTag key iv (xorStream key iv 0 (utf8Encode p))
      ++ xorStream key iv 0 (utf8Encode p)).take 12 = iv := by
    rw [List.append_assoc]
    exact List.take_left' hivLen
  have h2 : ((iv ++ gcmTag key iv (xorStream key iv 0 (utf8Encode p))
      ++ xorStream key iv 0 (utf8Encode p)).drop 12).take 16
      = gcmTag key iv (xorStream key iv 0 (utf8Encode p)) := by
    rw [List.append_assoc, List.drop_left' hivLen]
    exact List.take_left' hTagLen
  have h3 : (iv ++ gcmTag key iv (xorStream key iv 0 (utf8Encode p))
      ++ xorStream key iv 0 (utf8Encode p)).drop 28
      = xorStream key iv 0 (utf8Encode p) :=
    List.drop_left' hPreLen
  simp only [encrypt, decrypt, data_mk]
  rw [b64Decode_b64Encode _ hall]
  dsimp only
  rw [h1, h2, h3, if_pos rfl, xorStream_xorStream, utf8DecodeChars_utf8Encode]

/-- C8 witness: the round trip evaluated at a concrete password, a concrete
32-byte key and a concrete 12-byte nonce. -/
theorem envelope_round_trip_witness :
    decrypt (encrypt "s3cret" exKey32 iv0) exKey32 = .ok "s3cret" :=
  envelope_round_trip "s3cret" exKey32 iv0 (by decide) (by decide) (by decide)
    (by decide)

end Pwman
